import Mathlib

/-!
Shallow embedding of the PushLog incident-correlation engine core
(crate `server/incident-engine`): the normalizer (`normalize.rs`), the
fingerprint computer (`fingerprint.rs`), the streaming statistics tracker
(`stats.rs`), the correlation ranker (`correlation.rs`) and the engine
orchestration (`engine.rs`), together with theorems settling the claims
about them.

Modelling conventions:
- Rust `f64` values (EWMA baseline, spike factor, correlation scores and
  weights) are modelled by `ℚ`; every claim settled here is about branch
  structure and exact formulas, not floating-point rounding.
- `chrono::DateTime<Utc>` is modelled by `Int` (seconds since the epoch).
  `Duration::num_minutes()` truncates toward zero, which is `Int.tdiv`.
  The minute-bucket key `"%Y-%m-%dT%H:%M"` is an injective function of the
  floor of the epoch-second count divided by 60, so it is modelled by
  `Int.fdiv ts 60`.
- RFC3339 parsing is done by the external `chrono` crate; an inbound
  timestamp field is modelled by its parse result (`Option Int`, `none`
  standing for any string that fails to parse).
- `HashMap` values (minute buckets, the fingerprint-to-group table) are
  modelled by association lists updated in place; the source never relies
  on iteration order except for the peak-time tie-break, which no claim
  here touches.
- The blake3 digest is modelled by the exact byte sequence fed to the
  hasher: per the design notes the hash is deterministic and treated as
  collision-free, and every claim about fingerprints speaks of (in)equality
  of hash inputs.
-/

deriving instance DecidableEq for Except

namespace PushLog

/-- Rust `char::to_ascii_lowercase` agrees with Lean `Char.toLower`
(both lower only ASCII `A`-`Z`). Rust `str::to_ascii_lowercase`. -/
def lowerStr (s : String) : String := ⟨s.data.map Char.toLower⟩

/-- Lexicographic list comparison on characters, mirroring Rust `str` `cmp`
(UTF-8 byte order equals code-point order). Returns true when `a <= b`. -/
def charListLe : List Char → List Char → Bool
  | [], _ => true
  | _ :: _, [] => false
  | a :: as_, b :: bs =>
    if a = b then charListLe as_ bs
    else decide (a.toNat < b.toNat)

/-- Rust `str::ends_with` on the underlying characters. -/
def strEndsWith (s suffix_ : String) : Bool :=
  suffix_.data.isSuffixOf s.data

/-- Rust `str::starts_with` on the underlying characters. -/
def strStartsWith (s p : String) : Bool :=
  s.data.take p.data.length = p.data

/-- Rust `str::contains` (substring test) on the underlying characters. -/
def strContains (s sub : String) : Bool :=
  decide (sub.data <:+: s.data)

/-- Rust `str::split('/')`: segments between separators, empty segments
included, one (possibly empty) segment even for the empty string. -/
def splitChar (sep : Char) : List Char → List (List Char)
  | [] => [[]]
  | c :: rest =>
    if c = sep then [] :: splitChar sep rest
    else
      match splitChar sep rest with
      | s :: ss => (c :: s) :: ss
      | [] => [[c]]

/-- Rust `str::trim_end_matches('/')`: drop every trailing slash. -/
def trimEndSlashes (s : String) : String :=
  ⟨(s.data.reverse.dropWhile (fun c => c = '/')).reverse⟩

-- ---------------------------------------------------------------------------
-- normalize.rs : normalize_path
-- ---------------------------------------------------------------------------

/-- The slash-collapsing loop of `normalize_path`: keep a slash only when the
previous emitted character was not a slash (`prev_slash` flag). -/
def collapseSlashes : List Char → Bool → List Char
  | [], _ => []
  | c :: rest, prevSlash =>
    if c = '/' then
      if prevSlash then collapseSlashes rest true
      else '/' :: collapseSlashes rest true
    else c :: collapseSlashes rest false

/-- `strip_prefix("./")` step of `normalize_path`: drop one leading `./`. -/
def stripDotSlash : List Char → List Char
  | '.' :: '/' :: rest => rest
  | l => l

/-- `normalize.rs::normalize_path`: backslash to slash, collapse repeated
slashes, strip a leading `./`, ASCII-lowercase. -/
def normalize_path (p : String) : String :=
  ⟨(stripDotSlash
      (collapseSlashes (p.data.map (fun c => if c = '\\' then '/' else c)) false)).map
    Char.toLower⟩

-- ---------------------------------------------------------------------------
-- types.rs : severity, frames, events
-- ---------------------------------------------------------------------------

/-- `types.rs::Severity`. -/
inductive Severity
  | Warning
  | Error
  | Critical
deriving DecidableEq, Repr

/-- `types.rs::Severity::from_str_loose`: case-insensitive synonym table. -/
def Severity.from_str_loose (s : String) : Option Severity :=
  match lowerStr s with
  | "warning" | "warn" => some .Warning
  | "error" | "err" => some .Error
  | "critical" | "fatal" | "crit" => some .Critical
  | _ => none

/-- `types.rs::Severity::score`. -/
def Severity.score : Severity → Nat
  | .Warning => 30
  | .Error => 60
  | .Critical => 90

/-- `types.rs::InboundFrame`. -/
structure InboundFrame where
  file : String
  function : Option String
  line : Option Nat
deriving DecidableEq, Repr

/-- `types.rs::InboundCommit`. The `timestamp` field is an optional RFC3339
string; we model a present string by its parse result (`some none` = present
but unparsable). `risk_score` is carried as in the current source
(`normalize.rs` reads it; the checked-in `types.rs` predates it). -/
structure InboundCommit where
  id : String
  timestamp : Option (Option Int)
  files : List String
  risk_score : Option Nat
deriving DecidableEq, Repr

/-- `types.rs::InboundChangeWindow`; `deploy_time` modelled by its RFC3339
parse result. -/
structure InboundChangeWindow where
  deploy_time : Option Int
  commits : List InboundCommit
deriving DecidableEq, Repr

/-- Inbound correlation hints (`correlation_hints` JSON field), as read by
`normalize.rs`. -/
structure InboundHints where
  critical_paths : List String
  low_priority_paths : List String
deriving DecidableEq, Repr

/-- `types.rs::InboundEvent`, restricted to the fields the engine core
reads (`tags`, `links`, `api_route`, `request_url` are carried through
unchanged and touched by no claim). `timestamp` modelled by its RFC3339
parse result. -/
structure InboundEvent where
  source : String
  service : String
  environment : String
  timestamp : Option Int
  severity : String
  exception_type : String
  message : String
  stacktrace : List InboundFrame
  change_window : Option InboundChangeWindow
  correlation_hints : Option InboundHints
deriving DecidableEq, Repr

/-- `types.rs::Frame` (normalized: path-normalized file, line stripped). -/
structure Frame where
  file : String
  function : String
deriving DecidableEq, Repr

/-- `types.rs::CommitInfo` (normalized commit). -/
structure CommitInfo where
  id : String
  timestamp : Option Int
  files : List String
  risk_score : Option Nat
deriving DecidableEq, Repr

/-- `types.rs::ChangeWindow` (normalized). -/
structure ChangeWindow where
  deploy_time : Int
  commits : List CommitInfo
deriving DecidableEq, Repr

/-- Normalized correlation hints, as consumed by `correlation.rs`. -/
structure CorrelationHints where
  critical_paths : List String
  low_priority_paths : List String
deriving DecidableEq, Repr

/-- Modelled from the spec: `CorrelationHints::default()` is missing from
the checked-in `types.rs` (that file predates the hints feature, while
`normalize.rs`, `correlation.rs` and `engine.rs` all use it). Spec section
4.1: if hints are absent, default critical paths are empty and default
low-priority paths are the fixed set
docs/, doc/, tests/, test/, spec/, __tests__/, ".md". -/
def CorrelationHints.defaultHints : CorrelationHints :=
  { critical_paths := []
    low_priority_paths :=
      ["docs/", "doc/", "tests/", "test/", "spec/", "__tests__/", ".md"] }

/-- `types.rs::Event` (canonical internal event), restricted to the fields
the engine core reads. -/
structure Event where
  source : String
  service : String
  environment : String
  timestamp : Int
  severity : Severity
  exception_type : String
  message : String
  frames : List Frame
  change_window : Option ChangeWindow
  correlation_hints : CorrelationHints
deriving DecidableEq, Repr

/-- `error.rs::EngineError`. -/
inductive EngineError
  | Validation (field reason : String)
  | Parse (msg : String)
  | Json (msg : String)
deriving DecidableEq, Repr

-- ---------------------------------------------------------------------------
-- normalize.rs : normalize
-- ---------------------------------------------------------------------------

/-- Frame normalization step of `normalize.rs::normalize`: strip line
numbers, normalize the path, default a missing function to the empty
string. -/
def normalizeFrame (f : InboundFrame) : Frame :=
  { file := normalize_path f.file
    function := f.function.getD "" }

/-- Per-commit part of `normalize.rs::normalize`: parse the optional commit
timestamp (error on an unparsable one), normalize every changed file path,
discard a risk score above 100. -/
def normalizeCommit (c : InboundCommit) : Except EngineError CommitInfo :=
  match c.timestamp with
  | some none =>
    .error (.Validation "change_window.commits[].timestamp" "invalid RFC3339")
  | some (some t) =>
    .ok { id := c.id
          timestamp := some t
          files := c.files.map normalize_path
          risk_score := c.risk_score.filter (fun s => s ≤ 100) }
  | none =>
    .ok { id := c.id
          timestamp := none
          files := c.files.map normalize_path
          risk_score := c.risk_score.filter (fun s => s ≤ 100) }

/-- `collect::<Result<Vec<_>, EngineError>>()` over the commits: first error
wins. -/
def normalizeCommits : List InboundCommit → Except EngineError (List CommitInfo)
  | [] => .ok []
  | c :: rest =>
    match normalizeCommit c with
    | .error e => .error e
    | .ok ci =>
      match normalizeCommits rest with
      | .error e => .error e
      | .ok cis => .ok (ci :: cis)

/-- Change-window part of `normalize.rs::normalize`. -/
def normalizeChangeWindow :
    Option InboundChangeWindow → Except EngineError (Option ChangeWindow)
  | none => .ok none
  | some cw =>
    match cw.deploy_time with
    | none => .error (.Validation "change_window.deploy_time" "invalid RFC3339")
    | some dt =>
      match normalizeCommits cw.commits with
      | .error e => .error e
      | .ok commits => .ok (some { deploy_time := dt, commits := commits })

/-- Hints part of `normalize.rs::normalize`: lowercase supplied hints,
substitute the fixed low-priority set for an empty supplied list, fall back
to `CorrelationHints.defaultHints` when the field is absent. -/
def normalizeHints : Option InboundHints → CorrelationHints
  | none => CorrelationHints.defaultHints
  | some h =>
    { critical_paths := h.critical_paths.map lowerStr
      low_priority_paths :=
        if h.low_priority_paths = [] then
          ["docs/", "doc/", "tests/", "test/", "spec/", "__tests__/", ".md"]
        else h.low_priority_paths.map lowerStr }

/-- `normalize.rs::normalize`: validate and canonicalize one inbound event.
Checks run in source order: timestamp, severity, the five non-empty string
fields, non-empty stacktrace; then frames are normalized and the change
window parsed. -/
def normalize (raw : InboundEvent) : Except EngineError Event :=
  match raw.timestamp with
  | none => .error (.Validation "timestamp" "invalid RFC3339")
  | some ts =>
    match Severity.from_str_loose raw.severity with
    | none => .error (.Validation "severity" "expected warning|error|critical")
    | some sev =>
      if raw.source = "" then .error (.Validation "source" "must not be empty")
      else if raw.service = "" then .error (.Validation "service" "must not be empty")
      else if raw.environment = "" then
        .error (.Validation "environment" "must not be empty")
      else if raw.exception_type = "" then
        .error (.Validation "exception_type" "must not be empty")
      else if raw.message = "" then .error (.Validation "message" "must not be empty")
      else if raw.stacktrace = [] then
        .error (.Validation "stacktrace" "must have at least one frame")
      else
        match normalizeChangeWindow raw.change_window with
        | .error e => .error e
        | .ok cw =>
          .ok { source := lowerStr raw.source
                service := lowerStr raw.service
                environment := lowerStr raw.environment
                timestamp := ts
                severity := sev
                exception_type := raw.exception_type
                message := raw.message
                frames := raw.stacktrace.map normalizeFrame
                change_window := cw
                correlation_hints := normalizeHints raw.correlation_hints }

-- ---------------------------------------------------------------------------
-- config.rs
-- ---------------------------------------------------------------------------

/-- `config.rs::Config`. -/
structure Config where
  spike_threshold : ℚ
  ewma_alpha : ℚ
  regression_quiet_minutes : Nat
  fingerprint_max_frames : Nat
  correlation_time_weight : ℚ
  correlation_file_weight : ℚ
  correlation_risk_weight : ℚ
  correlation_max_hours : ℚ
deriving DecidableEq, Repr

/-- `config.rs::Config::default`. -/
def Config.default : Config :=
  { spike_threshold := 3
    ewma_alpha := 3 / 10
    regression_quiet_minutes := 60
    fingerprint_max_frames := 5
    correlation_time_weight := 3 / 10
    correlation_file_weight := 7 / 10
    correlation_risk_weight := 0
    correlation_max_hours := 24 }

-- ---------------------------------------------------------------------------
-- stats.rs
-- ---------------------------------------------------------------------------

/-- `stats.rs::minute_bucket`: the formatted key `"%Y-%m-%dT%H:%M"` is an
injective function of the UTC minute, i.e. of the floor of the epoch-second
count divided by 60. -/
def minute_bucket (ts : Int) : Int := Int.fdiv ts 60

/-- `types.rs::StatsState`. -/
structure StatsState where
  buckets : List (Int × Nat)
  total_count : Nat
  first_seen : Int
  last_seen : Int
  baseline : ℚ
  quiet_minutes : Nat
deriving DecidableEq, Repr

/-- `types.rs::StatsState::new`. -/
def StatsState.new (ts : Int) : StatsState :=
  { buckets := []
    total_count := 0
    first_seen := ts
    last_seen := ts
    baseline := 0
    quiet_minutes := 0 }

/-- `HashMap::entry(k).or_insert(0); *count += 1`: increment the entry for
`k`, inserting it with count 1 when absent. -/
def bucketIncr : List (Int × Nat) → Int → List (Int × Nat)
  | [], k => [(k, 1)]
  | (k', v) :: rest, k =>
    if k' = k then (k', v + 1) :: rest
    else (k', v) :: bucketIncr rest k

/-- Association-list lookup (`HashMap::get`). -/
def bucketGet : List (Int × Nat) → Int → Option Nat
  | [], _ => none
  | (k', v) :: rest, k => if k' = k then some v else bucketGet rest k

/-- Sum of all bucket counts. -/
def bucketSum (bs : List (Int × Nat)) : Nat :=
  (bs.map Prod.snd).sum

/-- The `elapsed_minutes` local of `record_event`:
`(ts - stats.last_seen).num_minutes().max(0) as u64`. `num_minutes()`
truncates toward zero (`Int.tdiv`); `.max(0) as u64` is `Int.toNat`. -/
def elapsedMinutes (stats : StatsState) (ts : Int) : Nat :=
  ((ts - stats.last_seen).tdiv 60).toNat

/-- The `is_regression` local of `record_event`. -/
def regressionFlag (stats : StatsState) (ts : Int) (config : Config) : Bool :=
  decide (0 < stats.total_count) &&
    decide (config.regression_quiet_minutes ≤ elapsedMinutes stats ts)

/-- The `current_count` local of `record_event`: the bucket count after its
increment. -/
def currentCount (stats : StatsState) (ts : Int) : Nat :=
  (bucketGet (bucketIncr stats.buckets (minute_bucket ts)) (minute_bucket ts)).getD 0

/-- The EWMA step of `record_event`: only when the incremented bucket count
is 1 and more than one bucket exists, average all buckets other than the
current one and blend with `ewma_alpha`; otherwise keep the baseline. -/
def updatedBaseline (stats : StatsState) (ts : Int) (config : Config) : ℚ :=
  let bucket := minute_bucket ts
  let buckets := bucketIncr stats.buckets bucket
  if currentCount stats ts = 1 ∧ 1 < buckets.length then
    let prev_sum : Nat := bucketSum (buckets.filter (fun p => p.1 ≠ bucket))
    let prev_count : ℚ := (buckets.length - 1 : Nat)
    let prev_avg : ℚ := (prev_sum : ℚ) / prev_count
    config.ewma_alpha * prev_avg + (1 - config.ewma_alpha) * stats.baseline
  else stats.baseline

/-- The `spike_factor` local of `record_event`, computed from the updated
baseline and the incremented counts. -/
def spikeFactor (stats : StatsState) (ts : Int) (config : Config) : ℚ :=
  if 0 < updatedBaseline stats ts config then
    (currentCount stats ts : ℚ) / updatedBaseline stats ts config
  else if 1 < stats.total_count + 1 then (currentCount stats ts : ℚ)
  else 1

/-- `stats.rs::record_event`, returning the updated state together with
`(spike_factor, is_regression)` (the Rust function mutates `stats` in
place). -/
def record_event (stats : StatsState) (ts : Int) (config : Config) :
    StatsState × ℚ × Bool :=
  ({ buckets := bucketIncr stats.buckets (minute_bucket ts)
     total_count := stats.total_count + 1
     first_seen := stats.first_seen
     last_seen := ts
     baseline := updatedBaseline stats ts config
     quiet_minutes :=
       if 0 < elapsedMinutes stats ts then elapsedMinutes stats ts
       else stats.quiet_minutes },
   spikeFactor stats ts config, regressionFlag stats ts config)

/-- Fold a timestamp list through `record_event` (an event history for one
fingerprint), producing the reachable states of a `StatsState`. -/
def runEvents (s : StatsState) (config : Config) : List Int → StatsState
  | [] => s
  | ts :: rest => runEvents (record_event s ts config).1 config rest

-- ---------------------------------------------------------------------------
-- fingerprint.rs
-- ---------------------------------------------------------------------------

/-- `types.rs::Fingerprint`. The blake3 digest is modelled by the byte
sequence fed to the hasher (deterministic, treated as collision-free per the
design notes); fingerprint (in)equality corresponds to hash-input
(in)equality. -/
structure Fingerprint where
  bytes : String
deriving DecidableEq, Repr

/-- The exact byte sequence `fingerprint.rs::compute` feeds to the hasher:
exception_type, `|`, service, `|`, environment, then `|file:function` for
each of the first `max_frames` normalized frames. -/
def fingerprintInput (e : Event) (max_frames : Nat) : String :=
  e.exception_type ++ "|" ++ e.service ++ "|" ++ e.environment ++
    String.join ((e.frames.take max_frames).map
      (fun f => "|" ++ f.file ++ ":" ++ f.function))

/-- `fingerprint.rs::compute`. -/
def compute (e : Event) (max_frames : Nat) : Fingerprint :=
  ⟨fingerprintInput e max_frames⟩

-- ---------------------------------------------------------------------------
-- correlation.rs
-- ---------------------------------------------------------------------------

/-- `types.rs::SuspectedCause`. -/
structure SuspectedCause where
  commit_id : String
  score : ℚ
  evidence : List String
deriving DecidableEq, Repr

/-- `correlation.rs::path_matches_hint`: prefix, `hint/` prefix, path
segment (equal or segment-suffix), or substring match, case-insensitive,
after dropping trailing slashes from the hint; an empty hint never
matches. -/
def path_matches_hint (path hint : String) : Bool :=
  let path := lowerStr path
  let hint := trimEndSlashes (lowerStr hint)
  if hint = "" then false
  else
    strStartsWith path hint ||
      strStartsWith path (hint ++ "/") ||
      ((splitChar '/' path.data).any
        (fun seg => seg = hint.data || hint.data.isSuffixOf seg)) ||
      strContains path hint

/-- `correlation.rs::commit_touches_paths`. -/
def commit_touches_paths (files paths : List String) : Bool :=
  if paths = [] then false
  else files.any (fun cf => paths.any (fun p => path_matches_hint (lowerStr cf) p))

/-- `correlation.rs::commit_is_low_priority_only`. -/
def commit_is_low_priority_only (files low_priority : List String) : Bool :=
  if files = [] ∨ low_priority = [] then false
  else files.all (fun cf => low_priority.any (fun p => path_matches_hint (lowerStr cf) p))

/-- The overlap test of `rank_suspects`: a commit file matches a stack-frame
file when either is a suffix of the other (after lowercasing the commit
file; frame files are already normalized). -/
def frameOverlap (frame_files : List String) (cf : String) : Bool :=
  frame_files.any (fun ff =>
    strEndsWith ff (lowerStr cf) || strEndsWith (lowerStr cf) ff)

/-- `f64::round` for the non-negative totals produced by `rank_suspects`
(`round` rounds half away from zero; totals are floored at 0 first, so this
equals floor of the value plus one half). `(total * 1000.0).round() / 1000.0`. -/
def round3 (q : ℚ) : ℚ := ((⌊q * 1000 + 1 / 2⌋ : Int) : ℚ) / 1000

/-- Per-commit body of the `filter_map` in `correlation.rs::rank_suspects`:
score one commit, or `none` when it is excluded (docs/tests-only with no
stack overlap) or its total is not positive. -/
def scoreCommit (frame_files : List String) (deploy_time event_time : Int)
    (hints : CorrelationHints) (config : Config) (commit : CommitInfo) :
    Option SuspectedCause :=
  let overlap_count := (commit.files.filter (frameOverlap frame_files)).length
  let file_score : ℚ :=
    if commit.files = [] then 0
    else (overlap_count : ℚ) / (commit.files.length : ℚ)
  let evidence1 : List String :=
    if 0 < overlap_count then
      [toString overlap_count ++ "/" ++ toString commit.files.length ++
        " changed files overlap stack frames"]
    else []
  let hours_since_deploy : ℚ := ((event_time - deploy_time).tdiv 60 : Int) / 60
  let time_score : ℚ :=
    if hours_since_deploy ≤ 0 ∨ config.correlation_max_hours < hours_since_deploy then 0
    else 1 - hours_since_deploy / config.correlation_max_hours
  let evidence2 : List String :=
    if 0 < time_score then ["hours after deploy"] else []
  let risk_score : ℚ :=
    match commit.risk_score with
    | some s => min ((s : ℚ) / 100) 1
    | none => 0
  let evidence3 : List String :=
    match commit.risk_score with
    | some s =>
      if 0 < config.correlation_risk_weight then ["risk score " ++ toString s]
      else []
    | none => []
  let critical_boost : ℚ :=
    if commit_touches_paths commit.files hints.critical_paths then 15 / 100 else 0
  let evidence4 : List String :=
    if 0 < critical_boost then ["touches critical path"] else []
  let is_low_priority_only :=
    commit_is_low_priority_only commit.files hints.low_priority_paths
  if is_low_priority_only ∧ overlap_count = 0 then none
  else
    let low_priority_penalty : ℚ := if is_low_priority_only then -(2 / 10) else 0
    let evidence5 : List String :=
      if low_priority_penalty < 0 then ["docs/tests only"] else []
    let total : ℚ :=
      max (config.correlation_file_weight * file_score +
            config.correlation_time_weight * time_score +
            config.correlation_risk_weight * risk_score +
            critical_boost + low_priority_penalty) 0
    if 0 < total then
      some { commit_id := commit.id
             score := round3 total
             evidence := evidence1 ++ evidence2 ++ evidence3 ++ evidence4 ++ evidence5 }
    else none

/-- The comparator of the final sort in `rank_suspects`: score descending,
ties broken by commit id ascending. -/
def suspectLe (a b : SuspectedCause) : Bool :=
  if a.score = b.score then charListLe a.commit_id.data b.commit_id.data
  else decide (b.score < a.score)

/-- `correlation.rs::rank_suspects`. -/
def rank_suspects (frames : List Frame) (change_window : ChangeWindow)
    (event_time : Int) (hints : CorrelationHints) (config : Config) :
    List SuspectedCause :=
  let frame_files := frames.map Frame.file
  let suspects := change_window.commits.filterMap
    (scoreCommit frame_files change_window.deploy_time event_time hints config)
  suspects.mergeSort suspectLe

-- ---------------------------------------------------------------------------
-- engine.rs
-- ---------------------------------------------------------------------------

/-- `types.rs::TriggerReason` (the current source also has `Deploy`, used by
`engine.rs`; the checked-in `types.rs` predates it). -/
inductive TriggerReason
  | Spike
  | NewIssue
  | Regression
  | Deploy
deriving DecidableEq, Repr

/-- `types.rs::IssueGroup`. -/
structure IssueGroup where
  fingerprint : Fingerprint
  exception_type : String
  message : String
  service : String
  environment : String
  stats : StatsState
deriving DecidableEq, Repr

/-- `engine.rs::Engine`: configuration plus the fingerprint-to-group table
(a `HashMap`, modelled as an association list). -/
structure Engine where
  config : Config
  groups : List (Fingerprint × IssueGroup)
deriving DecidableEq, Repr

/-- `HashMap::get` on the group table. -/
def groupsFind : List (Fingerprint × IssueGroup) → Fingerprint → Option IssueGroup
  | [], _ => none
  | (k, g) :: rest, fp => if k = fp then some g else groupsFind rest fp

/-- Store back the (possibly new) group under its fingerprint. -/
def groupsUpsert : List (Fingerprint × IssueGroup) → Fingerprint → IssueGroup →
    List (Fingerprint × IssueGroup)
  | [], fp, g => [(fp, g)]
  | (k, g') :: rest, fp, g =>
    if k = fp then (k, g) :: rest else (k, g') :: groupsUpsert rest fp g

/-- The group `entry(fp).or_insert_with(...)` starts from: the existing one,
or a fresh group seeded from the event. -/
def lookupOrSeedGroup (eng : Engine) (fp : Fingerprint) (event : Event) : IssueGroup :=
  (groupsFind eng.groups fp).getD
    { fingerprint := fp
      exception_type := event.exception_type
      message := event.message
      service := event.service
      environment := event.environment
      stats := StatsState.new event.timestamp }

/-- `engine.rs::Engine::process`, up to the trigger decision. The summary
assembly (`assemble_summary`) is pure presentation over the already-updated
group and touches no claim; the result carries the trigger (or `none` for
the silent outcome) in place of the full summary. Returns the result
together with the engine after the call (unchanged on error, mirroring the
early return before any mutation of `self.groups`). -/
def process (eng : Engine) (raw : InboundEvent) :
    Except EngineError (Option TriggerReason) × Engine :=
  match normalize raw with
  | .error e => (.error e, eng)
  | .ok event =>
    let fp := compute event eng.config.fingerprint_max_frames
    let group := lookupOrSeedGroup eng fp event
    let is_new := group.stats.total_count = 0
    let res := record_event group.stats event.timestamp eng.config
    let spike_factor := res.2.1
    let is_regression := res.2.2
    let group' := { group with stats := res.1 }
    let trigger : Option TriggerReason :=
      if event.exception_type = "GitPush" then some .Deploy
      else if is_new ∧ event.environment = "prod" then some .NewIssue
      else if is_regression ∧ event.environment = "prod" then some .Regression
      else if eng.config.spike_threshold ≤ spike_factor then some .Spike
      else none
    (.ok trigger, { eng with groups := groupsUpsert eng.groups fp group' })

-- ---------------------------------------------------------------------------
-- Helper lemmas: characters
-- ---------------------------------------------------------------------------

theorem toNat_ofNat_valid (n : Nat) (h : n < 55296) : (Char.ofNat n).toNat = n := by
  have hv : Nat.isValidChar n := Or.inl h
  simp [Char.ofNat, Char.ofNatAux, Char.toNat, hv, UInt32.toNat]

theorem toLower_eq_iff (c : Char) (k : Char)
    (hk : k.toNat < 65 ∨ (90 < k.toNat ∧ k.toNat < 97) ∨ 122 < k.toNat) :
    c.toLower = k ↔ c = k := by
  unfold Char.toLower
  dsimp only
  split
  case isTrue h =>
    constructor
    · intro he
      exfalso
      have h2 : (Char.ofNat (c.toNat + 32)).toNat = c.toNat + 32 := by
        apply toNat_ofNat_valid
        omega
      rw [he] at h2
      omega
    · intro he
      exfalso
      rw [he] at h
      omega
  case isFalse h => exact Iff.rfl

theorem toLower_eq_self_of_not_upper (c : Char) (h : ¬(65 ≤ c.toNat ∧ c.toNat ≤ 90)) :
    c.toLower = c := by
  unfold Char.toLower
  dsimp only
  rw [if_neg]
  omega

theorem toLower_not_upper (c : Char) :
    ¬(65 ≤ c.toLower.toNat ∧ c.toLower.toNat ≤ 90) := by
  unfold Char.toLower
  dsimp only
  split
  case isTrue h =>
    have h2 : (Char.ofNat (c.toNat + 32)).toNat = c.toNat + 32 := by
      apply toNat_ofNat_valid
      omega
    omega
  case isFalse h => omega

theorem toLower_idem (c : Char) : c.toLower.toLower = c.toLower :=
  toLower_eq_self_of_not_upper _ (toLower_not_upper c)

theorem toLower_slash_iff (c : Char) : c.toLower = '/' ↔ c = '/' :=
  toLower_eq_iff c '/' (by decide)

theorem toLower_backslash_iff (c : Char) : c.toLower = '\\' ↔ c = '\\' :=
  toLower_eq_iff c '\\' (by decide)

theorem toLower_dot_iff (c : Char) : c.toLower = '.' ↔ c = '.' :=
  toLower_eq_iff c '.' (by decide)

-- ---------------------------------------------------------------------------
-- Helper lemmas: truncating versus flooring minute division
-- ---------------------------------------------------------------------------

theorem toNat_tdiv_eq_toNat_max_fdiv (d : Int) :
    (d.tdiv 60).toNat = (max 0 (d.fdiv 60)).toNat := by
  rw [Int.fdiv_eq_ediv d (by omega)]
  rcases le_or_lt 0 d with hd | hd
  · rw [Int.tdiv_eq_ediv hd (by omega)]
    have : 0 ≤ d / 60 := Int.ediv_nonneg hd (by omega)
    omega
  · have h1 : d.tdiv 60 ≤ 0 := by
      have hneg : 0 ≤ -d := by omega
      have := Int.tdiv_nonneg hneg (b := 60) (by omega)
      rw [Int.neg_tdiv] at this
      omega
    have h2 : d / 60 ≤ 0 := by omega
    omega

-- ---------------------------------------------------------------------------
-- Helper lemmas: minute buckets
-- ---------------------------------------------------------------------------

theorem bucketGet_bucketIncr_self (bs : List (Int × Nat)) (k : Int) :
    bucketGet (bucketIncr bs k) k = some ((bucketGet bs k).getD 0 + 1) := by
  induction bs with
  | nil => simp [bucketIncr, bucketGet]
  | cons p rest ih =>
    obtain ⟨k', v⟩ := p
    by_cases h : k' = k
    · subst h
      simp [bucketIncr, bucketGet]
    · simp [bucketIncr, bucketGet, h, ih]

theorem bucketIncr_of_get_none (bs : List (Int × Nat)) (k : Int)
    (h : bucketGet bs k = none) : bucketIncr bs k = bs ++ [(k, 1)] := by
  induction bs with
  | nil => simp [bucketIncr]
  | cons p rest ih =>
    obtain ⟨k', v⟩ := p
    by_cases hk : k' = k
    · simp [bucketGet, hk] at h
    · simp [bucketGet, hk] at h
      simp [bucketIncr, hk, ih h]

theorem length_bucketIncr_of_get_some (bs : List (Int × Nat)) (k : Int) (v : Nat)
    (h : bucketGet bs k = some v) : (bucketIncr bs k).length = bs.length := by
  induction bs with
  | nil => simp [bucketGet] at h
  | cons p rest ih =>
    obtain ⟨k', w⟩ := p
    by_cases hk : k' = k
    · simp [bucketIncr, hk]
    · simp [bucketGet, hk] at h
      simp [bucketIncr, hk, ih h]

theorem bucketGet_eq_none_iff (bs : List (Int × Nat)) (k : Int) :
    bucketGet bs k = none ↔ ∀ p ∈ bs, p.1 ≠ k := by
  induction bs with
  | nil => simp [bucketGet]
  | cons p rest ih =>
    obtain ⟨k', v⟩ := p
    by_cases hk : k' = k
    · subst hk
      simp [bucketGet]
    · simp [bucketGet, hk, ih]

theorem bucketSum_append (bs cs : List (Int × Nat)) :
    bucketSum (bs ++ cs) = bucketSum bs + bucketSum cs := by
  simp [bucketSum]

theorem bucketSum_bucketIncr (bs : List (Int × Nat)) (k : Int) :
    bucketSum (bucketIncr bs k) = bucketSum bs + 1 := by
  induction bs with
  | nil => simp [bucketIncr, bucketSum]
  | cons p rest ih =>
    obtain ⟨k', v⟩ := p
    by_cases hk : k' = k
    · simp [bucketIncr, hk, bucketSum]
      omega
    · simp [bucketIncr, hk, bucketSum] at ih ⊢
      omega

theorem record_event_total_and_sum (s : StatsState) (ts : Int) (config : Config) :
    (record_event s ts config).1.total_count = s.total_count + 1
    ∧ bucketSum (record_event s ts config).1.buckets = bucketSum s.buckets + 1 :=
  ⟨rfl, bucketSum_bucketIncr s.buckets (minute_bucket ts)⟩

theorem runEvents_total_eq_sum (config : Config) (hist : List Int) :
    ∀ s : StatsState, s.total_count = bucketSum s.buckets →
      (runEvents s config hist).total_count
        = bucketSum (runEvents s config hist).buckets := by
  induction hist with
  | nil => intro s h; exact h
  | cons ts rest ih =>
    intro s h
    apply ih
    rw [(record_event_total_and_sum s ts config).1,
      (record_event_total_and_sum s ts config).2, h]

/-- C6: every `StatsState` reachable from `StatsState.new` by `record_event`
calls has `total_count` equal to the sum of all per-minute bucket counts;
both start at zero, and each call adds exactly one to the event's own minute
bucket and one to the total. -/
theorem total_count_eq_bucketSum (ts0 : Int) (config : Config) (hist : List Int) :
    (runEvents (StatsState.new ts0) config hist).total_count
      = bucketSum (runEvents (StatsState.new ts0) config hist).buckets
    ∧ (StatsState.new ts0).total_count = 0
    ∧ bucketSum (StatsState.new ts0).buckets = 0
    ∧ ∀ (s : StatsState) (ts : Int),
        (record_event s ts config).1.total_count = s.total_count + 1
        ∧ bucketGet (record_event s ts config).1.buckets (minute_bucket ts)
            = some ((bucketGet s.buckets (minute_bucket ts)).getD 0 + 1)
        ∧ bucketSum (record_event s ts config).1.buckets = bucketSum s.buckets + 1 := by
  refine ⟨runEvents_total_eq_sum config hist _ rfl, rfl, rfl, fun s ts => ⟨rfl, ?_, ?_⟩⟩
  · exact bucketGet_bucketIncr_self s.buckets (minute_bucket ts)
  · exact bucketSum_bucketIncr s.buckets (minute_bucket ts)

/-- C2: `record_event` reports `spike_factor` as current bucket count over
baseline when the (updated, always non-negative) baseline is positive, as
the current bucket count itself when the baseline is zero but the total
count after the increment exceeds one, and as exactly 1 on the very first
occurrence ever for a fingerprint (fresh `StatsState`, total count one). -/
theorem spike_factor_cases (s : StatsState) (ts : Int) (config : Config)
    (hb : 0 ≤ s.baseline) (ha0 : 0 ≤ config.ewma_alpha)
    (ha1 : config.ewma_alpha ≤ 1) :
    0 ≤ (record_event s ts config).1.baseline
    ∧ (0 < (record_event s ts config).1.baseline →
        (record_event s ts config).2.1 =
          (currentCount s ts : ℚ) / (record_event s ts config).1.baseline)
    ∧ ((record_event s ts config).1.baseline = 0 →
        1 < (record_event s ts config).1.total_count →
        (record_event s ts config).2.1 = (currentCount s ts : ℚ))
    ∧ (∀ t0 : Int,
        (record_event (StatsState.new t0) ts config).2.1 = 1
        ∧ (record_event (StatsState.new t0) ts config).1.total_count = 1) := by
  have hbase : (record_event s ts config).1.baseline = updatedBaseline s ts config := rfl
  have hspike : (record_event s ts config).2.1 = spikeFactor s ts config := rfl
  have hnn : 0 ≤ updatedBaseline s ts config := by
    unfold updatedBaseline
    dsimp only
    split
    · apply add_nonneg
      · exact mul_nonneg ha0 (div_nonneg (Nat.cast_nonneg _) (Nat.cast_nonneg _))
      · exact mul_nonneg (by linarith) hb
    · exact hb
  refine ⟨hbase ▸ hnn, ?_, ?_, ?_⟩
  · intro hpos
    rw [hbase] at hpos
    rw [hspike, hbase, spikeFactor, if_pos hpos]
  · intro hzero htot
    rw [hbase] at hzero
    have htot' : 1 < s.total_count + 1 := htot
    rw [hspike, spikeFactor, if_neg (by rw [hzero]; exact lt_irrefl 0), if_pos htot']
  · intro t0
    constructor
    · show spikeFactor (StatsState.new t0) ts config = 1
      have hb0 : updatedBaseline (StatsState.new t0) ts config = 0 := by
        unfold updatedBaseline
        dsimp only
        rw [if_neg]
        · rfl
        · intro hcon
          simp [StatsState.new, bucketIncr] at hcon
      rw [spikeFactor, hb0, if_neg (lt_irrefl 0), if_neg]
      simp [StatsState.new]
    · rfl

theorem spike_factor_cases_witness :
    (0 : ℚ) ≤ (StatsState.new 0).baseline
    ∧ (0 : ℚ) ≤ (Config.default).ewma_alpha ∧ (Config.default).ewma_alpha ≤ 1
    ∧ (record_event (StatsState.new 0) 0 Config.default).2.1 = 1 := by
  refine ⟨le_refl 0, by norm_num [Config.default], by norm_num [Config.default], ?_⟩
  exact ((spike_factor_cases (StatsState.new 0) 0 Config.default (le_refl 0)
    (by norm_num [Config.default]) (by norm_num [Config.default])).2.2.2 0).1

theorem elapsedMinutes_eq_max_fdiv (s : StatsState) (ts : Int) :
    elapsedMinutes s ts = (max 0 ((ts - s.last_seen).fdiv 60)).toNat :=
  toNat_tdiv_eq_toNat_max_fdiv (ts - s.last_seen)

/-- C3 counterexample: with `regression_quiet_minutes = 0`, a second event
whose timestamp lies strictly before `last_seen` (out of order) is flagged
as a regression, so the claim's final clause (out-of-order is never a
regression) fails as stated. -/
theorem regression_out_of_order_cex :
    (60 : Int) <
      ((record_event (StatsState.new 0) 120
          { Config.default with regression_quiet_minutes := 0 }).1).last_seen
    ∧ (record_event
        (record_event (StatsState.new 0) 120
          { Config.default with regression_quiet_minutes := 0 }).1
        60 { Config.default with regression_quiet_minutes := 0 }).2.2 = true := by
  constructor
  · decide
  · decide

/-- C3 (amended): `record_event` returns `is_regression` true iff
`total_count > 0` before the call and the whole-minute reading
`max(0, floor((ts - last_seen)/minute))`, computed before `last_seen` is
updated, reaches `regression_quiet_minutes`; an out-of-order timestamp is
accepted, yields a zero reading, and — provided the configured quiet window
is positive — is never a regression. -/
theorem regression_flag_characterization (s : StatsState) (ts : Int) (config : Config) :
    ((record_event s ts config).2.2 = true ↔
      0 < s.total_count ∧
        config.regression_quiet_minutes ≤ (max 0 ((ts - s.last_seen).fdiv 60)).toNat)
    ∧ (ts < s.last_seen →
        (max 0 ((ts - s.last_seen).fdiv 60)).toNat = 0
        ∧ elapsedMinutes s ts = 0
        ∧ (0 < config.regression_quiet_minutes →
            (record_event s ts config).2.2 = false)) := by
  have hreg : (record_event s ts config).2.2 = regressionFlag s ts config := rfl
  have helapsed := elapsedMinutes_eq_max_fdiv s ts
  constructor
  · rw [hreg, regressionFlag, ← helapsed]
    simp
  · intro hlt
    have hzero : elapsedMinutes s ts = 0 := by
      unfold elapsedMinutes
      have h1 : (ts - s.last_seen).tdiv 60 ≤ 0 := by
        have hneg : 0 ≤ -(ts - s.last_seen) := by omega
        have := Int.tdiv_nonneg hneg (b := 60) (by omega)
        rw [Int.neg_tdiv] at this
        omega
      omega
    refine ⟨by rw [← helapsed]; exact hzero, hzero, fun hq => ?_⟩
    rw [hreg, regressionFlag, hzero]
    simp
    omega

theorem regression_flag_characterization_witness :
    (60 : Int) < (StatsState.new 120).last_seen
    ∧ (0 : Nat) < Config.default.regression_quiet_minutes
    ∧ (record_event (StatsState.new 120) 60 Config.default).2.2 = false := by
  refine ⟨by decide, by decide, ?_⟩
  exact ((regression_flag_characterization (StatsState.new 120) 60 Config.default).2
    (by decide)).2.2 (by decide)

/-- C4: the EWMA baseline changes only when the occurrence opens a new
minute bucket while at least one other bucket exists, and then moves to
`alpha * prev_avg + (1 - alpha) * baseline` where `prev_avg` is the mean of
all buckets other than the current one (equivalently, of all pre-call
buckets); a further occurrence in an existing bucket, or the very first
bucket, leaves the baseline unchanged. -/
theorem baseline_update_rule (s : StatsState) (ts : Int) (config : Config) :
    (∀ c : Nat, bucketGet s.buckets (minute_bucket ts) = some c → 0 < c →
      (record_event s ts config).1.baseline = s.baseline)
    ∧ (s.buckets = [] → (record_event s ts config).1.baseline = s.baseline)
    ∧ (bucketGet s.buckets (minute_bucket ts) = none → s.buckets ≠ [] →
        (record_event s ts config).1.baseline =
          config.ewma_alpha *
              ((bucketSum s.buckets : ℚ) / (s.buckets.length : ℚ))
            + (1 - config.ewma_alpha) * s.baseline) := by
  have hbase : (record_event s ts config).1.baseline = updatedBaseline s ts config := rfl
  refine ⟨?_, ?_, ?_⟩
  · intro c hget hpos
    rw [hbase]
    unfold updatedBaseline
    dsimp only
    rw [if_neg]
    intro hcon
    have hcur : currentCount s ts = c + 1 := by
      unfold currentCount
      rw [bucketGet_bucketIncr_self, hget]
      rfl
    omega
  · intro hnil
    rw [hbase]
    unfold updatedBaseline
    dsimp only
    rw [if_neg]
    intro hcon
    rw [hnil] at hcon
    simp [bucketIncr] at hcon
  · intro hget hne
    rw [hbase]
    unfold updatedBaseline
    dsimp only
    have hincr := bucketIncr_of_get_none s.buckets (minute_bucket ts) hget
    have hcur : currentCount s ts = 1 := by
      unfold currentCount
      rw [bucketGet_bucketIncr_self, hget]
      rfl
    have hfil :
        (bucketIncr s.buckets (minute_bucket ts)).filter
            (fun p => p.1 ≠ minute_bucket ts) = s.buckets := by
      rw [hincr, List.filter_append]
      have h1 : s.buckets.filter (fun p => p.1 ≠ minute_bucket ts) = s.buckets := by
        rw [List.filter_eq_self]
        intro p hp
        have := (bucketGet_eq_none_iff s.buckets (minute_bucket ts)).mp hget p hp
        simpa using this
      have h2 : ([((minute_bucket ts : Int), (1 : Nat))]).filter
          (fun p => p.1 ≠ minute_bucket ts) = [] := by
        simp
      rw [h1, h2, List.append_nil]
    rw [if_pos]
    · rw [hfil, hincr]
      have hlen : (s.buckets ++ [((minute_bucket ts : Int), (1 : Nat))]).length - 1
          = s.buckets.length := by
        simp
      rw [hlen]
    · constructor
      · exact hcur
      · rw [hincr]
        simp only [List.length_append, List.length_cons, List.length_nil]
        have : 0 < s.buckets.length := List.length_pos.mpr hne
        omega

theorem baseline_update_rule_witness :
    bucketGet (StatsState.mk [((0 : Int), (1 : Nat))] 1 0 0 1 0).buckets
        (minute_bucket 60) = none
    ∧ (StatsState.mk [((0 : Int), (1 : Nat))] 1 0 0 1 0).buckets ≠ []
    ∧ (record_event (StatsState.mk [((0 : Int), (1 : Nat))] 1 0 0 1 0) 60
        Config.default).1.baseline =
      Config.default.ewma_alpha *
          ((bucketSum (StatsState.mk [((0 : Int), (1 : Nat))] 1 0 0 1 0).buckets : ℚ) /
            ((StatsState.mk [((0 : Int), (1 : Nat))] 1 0 0 1 0).buckets.length : ℚ))
        + (1 - Config.default.ewma_alpha) *
            (StatsState.mk [((0 : Int), (1 : Nat))] 1 0 0 1 0).baseline := by
  refine ⟨by decide, by decide, ?_⟩
  exact (baseline_update_rule (StatsState.mk [((0 : Int), (1 : Nat))] 1 0 0 1 0) 60
    Config.default).2.2 (by decide) (by decide)

theorem normalize_ok_shape (raw : InboundEvent) (event : Event)
    (h : normalize raw = .ok event) :
    event.exception_type = raw.exception_type
    ∧ event.message = raw.message
    ∧ event.source = lowerStr raw.source
    ∧ event.service = lowerStr raw.service
    ∧ event.environment = lowerStr raw.environment
    ∧ event.frames = raw.stacktrace.map normalizeFrame
    ∧ event.correlation_hints = normalizeHints raw.correlation_hints
    ∧ raw.timestamp = some event.timestamp := by
  unfold normalize at h
  repeat' split at h
  all_goals try exact Except.noConfusion h
  injection h with h'
  subst h'
  refine ⟨rfl, rfl, rfl, rfl, rfl, rfl, rfl, ?_⟩
  assumption

theorem normalizeCommit_error_validation (c : InboundCommit) (err : EngineError)
    (h : normalizeCommit c = .error err) : ∃ f r, err = .Validation f r := by
  unfold normalizeCommit at h
  repeat' split at h
  all_goals first
    | exact Except.noConfusion h
    | (injection h with h'; exact ⟨_, _, h'.symm⟩)

theorem normalizeCommits_error_validation (cs : List InboundCommit) (err : EngineError)
    (h : normalizeCommits cs = .error err) : ∃ f r, err = .Validation f r := by
  induction cs with
  | nil => exact Except.noConfusion h
  | cons c rest ih =>
    unfold normalizeCommits at h
    split at h
    · injection h with h'
      subst h'
      exact normalizeCommit_error_validation c _ (by assumption)
    · split at h
      · injection h with h'
        subst h'
        exact ih (by assumption)
      · exact Except.noConfusion h

theorem normalizeChangeWindow_error_validation (cw : Option InboundChangeWindow)
    (err : EngineError) (h : normalizeChangeWindow cw = .error err) :
    ∃ f r, err = .Validation f r := by
  unfold normalizeChangeWindow at h
  repeat' split at h
  all_goals first
    | exact Except.noConfusion h
    | (injection h with h'; exact ⟨_, _, h'.symm⟩)
    | (injection h with h'; subst h';
        exact normalizeCommits_error_validation _ _ (by assumption))

theorem normalize_error_validation (raw : InboundEvent) (err : EngineError)
    (h : normalize raw = .error err) : ∃ f r, err = .Validation f r := by
  unfold normalize at h
  repeat' split at h
  all_goals first
    | exact Except.noConfusion h
    | (injection h with h'; exact ⟨_, _, h'.symm⟩)
    | (injection h with h'; subst h';
        exact normalizeChangeWindow_error_validation _ _ (by assumption))

/-- C9: when normalization rejects an inbound event (every such rejection is
a field-scoped validation error: bad timestamp, unknown severity, empty
required field, empty stacktrace, or a bad change-window timestamp),
`Engine::process` returns exactly that error and the fingerprint-to-group
table is completely unchanged — mutation happens only after validation
succeeds. -/
theorem process_error_leaves_groups (eng : Engine) (raw : InboundEvent)
    (err : EngineError) (h : normalize raw = .error err) :
    process eng raw = (.error err, eng)
    ∧ (process eng raw).2.groups = eng.groups
    ∧ ∃ field reason, err = .Validation field reason := by
  have hp : process eng raw = (.error err, eng) := by
    unfold process
    rw [h]
  exact ⟨hp, by rw [hp], normalize_error_validation raw err h⟩

/-- A concrete rejected event (unparsable timestamp) for the C9 witness. -/
def cexBadRaw : InboundEvent :=
  { source := "sentry"
    service := "api"
    environment := "prod"
    timestamp := none
    severity := "error"
    exception_type := "TypeError"
    message := "boom"
    stacktrace := [{ file := "src/handler.ts", function := some "handle", line := some 42 }]
    change_window := none
    correlation_hints := none }

/-- A concrete engine with one existing group, for the C9 witness. -/
def cexEngine : Engine :=
  { config := Config.default
    groups := [(⟨"fp"⟩, { fingerprint := ⟨"fp"⟩
                          exception_type := "TypeError"
                          message := "boom"
                          service := "api"
                          environment := "prod"
                          stats := StatsState.new 0 })] }

theorem process_error_leaves_groups_witness :
    process cexEngine cexBadRaw =
      (.error (.Validation "timestamp" "invalid RFC3339"), cexEngine)
    ∧ (process cexEngine cexBadRaw).2.groups = cexEngine.groups := by
  have h := process_error_leaves_groups cexEngine cexBadRaw
    (.Validation "timestamp" "invalid RFC3339") (by decide)
  exact ⟨h.1, h.2.1⟩

/-- C8: with no inbound `correlation_hints` the canonical event gets empty
critical paths and the fixed low-priority set; supplied hints are
ASCII-lowercased (critical paths always, low-priority paths when the
supplied list is non-empty). -/
theorem normalize_hints_behavior (raw : InboundEvent) (event : Event)
    (h : normalize raw = .ok event) :
    (raw.correlation_hints = none →
      event.correlation_hints.critical_paths = []
      ∧ event.correlation_hints.low_priority_paths =
          ["docs/", "doc/", "tests/", "test/", "spec/", "__tests__/", ".md"])
    ∧ (∀ hints : InboundHints, raw.correlation_hints = some hints →
        event.correlation_hints.critical_paths = hints.critical_paths.map lowerStr
        ∧ (hints.low_priority_paths ≠ [] →
            event.correlation_hints.low_priority_paths =
              hints.low_priority_paths.map lowerStr)) := by
  have hs := (normalize_ok_shape raw event h).2.2.2.2.2.2.1
  constructor
  · intro hnone
    rw [hs, hnone]
    exact ⟨rfl, rfl⟩
  · intro hints hsome
    rw [hs, hsome]
    refine ⟨rfl, fun hne => ?_⟩
    simp [normalizeHints, hne]

/-- Concrete raw event carrying hints, for the C8 witness. -/
def cexHintedRaw : InboundEvent :=
  { cexBadRaw with
      timestamp := some 0
      correlation_hints := some { critical_paths := ["SRC/Auth"]
                                  low_priority_paths := ["Docs/"] } }

/-- The canonical event `normalize` produces for `cexHintedRaw`. -/
def cexHintedEvent : Event :=
  { source := "sentry"
    service := "api"
    environment := "prod"
    timestamp := 0
    severity := .Error
    exception_type := "TypeError"
    message := "boom"
    frames := [{ file := "src/handler.ts", function := "handle" }]
    change_window := none
    correlation_hints := { critical_paths := ["src/auth"]
                           low_priority_paths := ["docs/"] } }

/-- Concrete raw event without hints, and its canonical event, for the C8
witness. -/
def cexPlainRaw : InboundEvent :=
  { cexBadRaw with timestamp := some 0 }

/-- The canonical event `normalize` produces for `cexPlainRaw`. -/
def cexPlainEvent : Event :=
  { cexHintedEvent with correlation_hints := CorrelationHints.defaultHints }

theorem normalize_hints_behavior_witness :
    cexPlainEvent.correlation_hints.critical_paths = []
    ∧ cexPlainEvent.correlation_hints.low_priority_paths =
        ["docs/", "doc/", "tests/", "test/", "spec/", "__tests__/", ".md"]
    ∧ cexHintedEvent.correlation_hints.critical_paths =
        (["SRC/Auth"] : List String).map lowerStr
    ∧ cexHintedEvent.correlation_hints.low_priority_paths =
        (["Docs/"] : List String).map lowerStr := by
  have hd := (normalize_hints_behavior cexPlainRaw cexPlainEvent (by decide)).1 (by decide)
  have hh := (normalize_hints_behavior cexHintedRaw cexHintedEvent (by decide)).2
    { critical_paths := ["SRC/Auth"], low_priority_paths := ["Docs/"] } (by decide)
  exact ⟨hd.1, hd.2, hh.1, hh.2 (by decide)⟩

/-- C10: the normalizer case-folds only `source`, `service` and
`environment`; `exception_type` and `message` pass through byte-for-byte.
Consequently two accepted raw events that agree on service, environment and
stacktrace but have different `exception_type` strings (in particular, the
same name in different casing) produce canonical events with different
fingerprint hash inputs, so they are grouped as distinct issues. -/
theorem normalize_casefold_scope (raw1 raw2 : InboundEvent) (e1 e2 : Event) (n : Nat)
    (h1 : normalize raw1 = .ok e1) (h2 : normalize raw2 = .ok e2) :
    (e1.exception_type = raw1.exception_type
      ∧ e1.message = raw1.message
      ∧ e1.source = lowerStr raw1.source
      ∧ e1.service = lowerStr raw1.service
      ∧ e1.environment = lowerStr raw1.environment)
    ∧ (raw1.service = raw2.service → raw1.environment = raw2.environment →
        raw1.stacktrace = raw2.stacktrace →
        raw1.exception_type ≠ raw2.exception_type →
        compute e1 n ≠ compute e2 n) := by
  obtain ⟨hx1, hm1, hs1, hv1, he1, hf1, -, -⟩ := normalize_ok_shape raw1 e1 h1
  obtain ⟨hx2, hm2, hs2, hv2, he2, hf2, -, -⟩ := normalize_ok_shape raw2 e2 h2
  refine ⟨⟨hx1, hm1, hs1, hv1, he1⟩, ?_⟩
  intro hsvc henv hst hexc hcomp
  apply hexc
  have hsvc' : e1.service = e2.service := by rw [hv1, hv2, hsvc]
  have henv' : e1.environment = e2.environment := by rw [he1, he2, henv]
  have hfr' : e1.frames = e2.frames := by rw [hf1, hf2, hst]
  have hinput : fingerprintInput e1 n = fingerprintInput e2 n := by
    have := congrArg Fingerprint.bytes hcomp
    simpa [compute] using this
  unfold fingerprintInput at hinput
  rw [hsvc', henv', hfr'] at hinput
  have hdata := congrArg String.data hinput
  simp only [String.data_append] at hdata
  rw [← hx1, ← hx2]
  apply String.ext
  have hdata' :
      e1.exception_type.data ++
        (("|" ++ e2.service ++ "|" ++ e2.environment ++
          String.join ((e2.frames.take n).map
            (fun f => "|" ++ f.file ++ ":" ++ f.function))).data) =
      e2.exception_type.data ++
        (("|" ++ e2.service ++ "|" ++ e2.environment ++
          String.join ((e2.frames.take n).map
            (fun f => "|" ++ f.file ++ ":" ++ f.function))).data) := by
    simp only [String.data_append]
    simpa using hdata
  exact List.append_cancel_right hdata'

/-- Raw event differing from `cexPlainRaw` only in the casing of
`exception_type`, for the C10 witness. -/
def cexLowerRaw : InboundEvent :=
  { cexPlainRaw with exception_type := "typeerror" }

/-- The canonical event `normalize` produces for `cexLowerRaw`. -/
def cexLowerEvent : Event :=
  { cexPlainEvent with exception_type := "typeerror" }

theorem normalize_casefold_scope_witness :
    cexPlainEvent.exception_type = "TypeError"
    ∧ cexLowerEvent.exception_type = "typeerror"
    ∧ compute cexPlainEvent 5 ≠ compute cexLowerEvent 5 := by
  have h := normalize_casefold_scope cexPlainRaw cexLowerRaw cexPlainEvent cexLowerEvent 5
    (by decide) (by decide)
  exact ⟨by decide, by decide, h.2 (by decide) (by decide) (by decide) (by decide)⟩

theorem replaceBackslash_toLower_comm (c : Char) :
    (if c.toLower = '\\' then '/' else c.toLower)
      = (if c = '\\' then '/' else c).toLower := by
  by_cases h : c = '\\'
  · subst h
    decide
  · rw [if_neg ((not_congr (toLower_backslash_iff c)).mpr h), if_neg h]

theorem collapseSlashes_map_toLower (l : List Char) :
    ∀ b : Bool, collapseSlashes (l.map Char.toLower) b
      = (collapseSlashes l b).map Char.toLower := by
  induction l with
  | nil => intro b; rfl
  | cons c rest ih =>
    intro b
    by_cases h : c = '/'
    · subst h
      simp only [List.map_cons]
      rw [show ('/' : Char).toLower = '/' from by decide]
      unfold collapseSlashes
      rw [if_pos rfl, if_pos rfl]
      by_cases hb : b
      · subst hb
        simp only [if_pos rfl]
        exact ih true
      · simp only [Bool.not_eq_true] at hb
        subst hb
        rw [if_neg (Bool.false_ne_true), if_neg (Bool.false_ne_true), List.map_cons,
          show ('/' : Char).toLower = '/' from by decide, ih true]
    · simp only [List.map_cons]
      unfold collapseSlashes
      rw [if_neg ((not_congr (toLower_slash_iff c)).mpr h), if_neg h]
      rw [List.map_cons, ih false]

theorem stripDotSlash_cons_cons_of {c1 c2 : Char} (rest : List Char)
    (h : ¬(c1 = '.' ∧ c2 = '/')) :
    stripDotSlash (c1 :: c2 :: rest) = c1 :: c2 :: rest := by
  unfold stripDotSlash
  split
  · next heq => simp_all
  · rfl

theorem stripDotSlash_single (x : Char) : stripDotSlash [x] = [x] := by
  unfold stripDotSlash
  split
  · next heq => simp_all
  · rfl

theorem stripDotSlash_map_toLower (l : List Char) :
    stripDotSlash (l.map Char.toLower) = (stripDotSlash l).map Char.toLower := by
  match l with
  | [] => rfl
  | [c] =>
    simp only [List.map_cons, List.map_nil]
    rw [stripDotSlash_single, stripDotSlash_single, List.map_cons, List.map_nil]
  | c1 :: c2 :: rest =>
    by_cases h : c1 = '.' ∧ c2 = '/'
    · obtain ⟨h1, h2⟩ := h
      subst h1
      subst h2
      simp only [List.map_cons]
      rw [show ('.' : Char).toLower = '.' from by decide,
        show ('/' : Char).toLower = '/' from by decide]
      rfl
    · have h1 : ¬(c1.toLower = '.' ∧ c2.toLower = '/') := by
        rw [toLower_dot_iff, toLower_slash_iff]
        exact h
      rw [show (c1 :: c2 :: rest).map Char.toLower
          = c1.toLower :: c2.toLower :: rest.map Char.toLower from rfl]
      rw [stripDotSlash_cons_cons_of _ h1, stripDotSlash_cons_cons_of _ h]
      rfl

theorem normalize_path_lowerStr (p : String) :
    normalize_path (lowerStr p) = normalize_path p := by
  unfold normalize_path lowerStr
  apply congrArg
  have h1 : (p.data.map Char.toLower).map (fun c => if c = '\\' then '/' else c)
      = (p.data.map (fun c => if c = '\\' then '/' else c)).map Char.toLower := by
    rw [List.map_map, List.map_map]
    apply List.map_congr_left
    intro c _
    exact replaceBackslash_toLower_comm c
  rw [show ((⟨p.data.map Char.toLower⟩ : String)).data = p.data.map Char.toLower from rfl]
  rw [h1, collapseSlashes_map_toLower, stripDotSlash_map_toLower,
    List.map_map]
  apply List.map_congr_left
  intro c _
  exact toLower_idem c

/-- C5: the fingerprint is a congruence in exception type, service,
environment and the first `max_frames` normalized frames (extra trailing
frames are ignored; line numbers are already stripped from `Frame`), and
path normalization is insensitive to ASCII casing and to slash style in the
raw frame paths. -/
theorem fingerprint_stability (e1 e2 : Event) (n : Nat)
    (hexc : e1.exception_type = e2.exception_type)
    (hsvc : e1.service = e2.service)
    (henv : e1.environment = e2.environment)
    (hfr : e1.frames.take n = e2.frames.take n) :
    compute e1 n = compute e2 n
    ∧ (∀ p q : String, lowerStr p = lowerStr q → normalize_path p = normalize_path q)
    ∧ (∀ p : String,
        normalize_path ⟨p.data.map (fun c => if c = '/' then '\\' else c)⟩
          = normalize_path p) := by
  refine ⟨?_, ?_, ?_⟩
  · unfold compute fingerprintInput
    rw [hexc, hsvc, henv, hfr]
  · intro p q hpq
    rw [← normalize_path_lowerStr p, ← normalize_path_lowerStr q, hpq]
  · intro p
    unfold normalize_path
    apply congrArg
    have h1 : (p.data.map (fun c => if c = '/' then '\\' else c)).map
          (fun c => if c = '\\' then '/' else c)
        = p.data.map (fun c => if c = '\\' then '/' else c) := by
      rw [List.map_map]
      apply List.map_congr_left
      intro c _
      by_cases h : c = '/'
      · subst h
        rfl
      · simp only [Function.comp_apply, if_neg h]
    rw [show ((⟨p.data.map (fun c => if c = '/' then '\\' else c)⟩ : String)).data
        = p.data.map (fun c => if c = '/' then '\\' else c) from rfl]
    rw [h1]

theorem fingerprint_stability_witness :
    compute cexPlainEvent 1
      = compute { cexPlainEvent with
          frames := cexPlainEvent.frames ++ [{ file := "extra.ts", function := "f" }] } 1
    ∧ normalize_path "SRC/App.tsx" = normalize_path "src/app.tsx"
    ∧ normalize_path "src\\app.tsx" = normalize_path "src/app.tsx" := by
  have h := fingerprint_stability cexPlainEvent
    { cexPlainEvent with
        frames := cexPlainEvent.frames ++ [{ file := "extra.ts", function := "f" }] } 1
    (by decide) (by decide) (by decide) (by decide)
  have hbs := h.2.2 "src/app.tsx"
  refine ⟨h.1, h.2.1 "SRC/App.tsx" "src/app.tsx" (by decide), ?_⟩
  have heq : (⟨("src/app.tsx" : String).data.map
      (fun c => if c = '/' then '\\' else c)⟩ : String) = "src\\app.tsx" := by decide
  rw [heq] at hbs
  exact hbs

/-- C7: a commit whose changed files (at least one) all match a low-priority
hint and which has zero file overlap with the stack frames contributes
nothing to `rank_suspects`: deleting it from the change window leaves the
output unchanged, so it never appears in `suspected_causes`, whatever its
time proximity, risk score or critical-path boost. -/
theorem low_priority_only_excluded (frames : List Frame)
    (deploy_time event_time : Int) (hints : CorrelationHints) (config : Config)
    (c : CommitInfo) (pre post : List CommitInfo)
    (hne : c.files ≠ [])
    (hlow : ∀ cf ∈ c.files, ∃ h ∈ hints.low_priority_paths,
        path_matches_hint (lowerStr cf) h = true)
    (hover : ∀ cf ∈ c.files, frameOverlap (frames.map Frame.file) cf = false) :
    rank_suspects frames ⟨deploy_time, pre ++ c :: post⟩ event_time hints config
      = rank_suspects frames ⟨deploy_time, pre ++ post⟩ event_time hints config := by
  have hlp : commit_is_low_priority_only c.files hints.low_priority_paths = true := by
    unfold commit_is_low_priority_only
    rw [if_neg]
    · rw [List.all_eq_true]
      intro cf hcf
      rw [List.any_eq_true]
      obtain ⟨hh, hhm, hmatch⟩ := hlow cf hcf
      exact ⟨hh, hhm, hmatch⟩
    · push_neg
      refine ⟨hne, ?_⟩
      obtain ⟨cf, hcf⟩ := List.exists_mem_of_ne_nil c.files hne
      obtain ⟨hh, hhm, -⟩ := hlow cf hcf
      intro hlemp
      rw [hlemp] at hhm
      exact absurd hhm (List.not_mem_nil hh)
  have hoc : (c.files.filter (frameOverlap (frames.map Frame.file))).length = 0 := by
    rw [List.length_eq_zero, List.filter_eq_nil_iff]
    intro cf hcf
    rw [hover cf hcf]
    exact Bool.false_ne_true
  have hnone :
      scoreCommit (frames.map Frame.file) deploy_time event_time hints config c
        = none := by
    unfold scoreCommit
    dsimp only
    rw [if_pos ⟨hlp, hoc⟩]
  unfold rank_suspects
  dsimp only
  rw [List.filterMap_append, List.filterMap_append, List.filterMap_cons_none hnone]

/-- Docs-only commit for the C7 witness. -/
def cexDocsCommit : CommitInfo :=
  { id := "docs-only", timestamp := none, files := ["docs/readme.md"], risk_score := some 100 }

/-- Code-touching commit for the C7 witness. -/
def cexCodeCommit : CommitInfo :=
  { id := "aaa", timestamp := none, files := ["src/handler.ts"], risk_score := none }

theorem low_priority_only_excluded_witness :
    rank_suspects [{ file := "src/handler.ts", function := "handle" }]
        ⟨0, [cexDocsCommit, cexCodeCommit]⟩ 1800 ⟨[], ["docs/"]⟩ Config.default
      = rank_suspects [{ file := "src/handler.ts", function := "handle" }]
          ⟨0, [cexCodeCommit]⟩ 1800 ⟨[], ["docs/"]⟩ Config.default := by
  exact low_priority_only_excluded [{ file := "src/handler.ts", function := "handle" }]
    0 1800 ⟨[], ["docs/"]⟩ Config.default cexDocsCommit [] [cexCodeCommit]
    (by decide) (by decide) (by decide)

/-- C1: for every inbound event accepted by the normalizer, `process`
decides the trigger by strict first-match priority — Deploy on the
`GitPush` exception type; else NewIssue iff the group is first-ever
(`total_count = 0` before the update) and the environment is `prod`; else
Regression iff the group has history, the regression flag holds and the
environment is `prod`; else Spike iff the spike factor reaches the
threshold; else no trigger — and the group statistics are updated in every
accepted case, the silent one included. In particular a first-ever event in
a non-`prod` environment never triggers NewIssue. -/
theorem process_trigger_priority (eng : Engine) (raw : InboundEvent) (event : Event)
    (h : normalize raw = .ok event) :
    ((process eng raw).1 = .ok (some .Deploy) ↔ event.exception_type = "GitPush")
    ∧ ((process eng raw).1 = .ok (some .NewIssue) ↔
        event.exception_type ≠ "GitPush"
        ∧ (lookupOrSeedGroup eng (compute event eng.config.fingerprint_max_frames)
            event).stats.total_count = 0
        ∧ event.environment = "prod")
    ∧ ((process eng raw).1 = .ok (some .Regression) ↔
        event.exception_type ≠ "GitPush"
        ∧ (lookupOrSeedGroup eng (compute event eng.config.fingerprint_max_frames)
            event).stats.total_count ≠ 0
        ∧ regressionFlag (lookupOrSeedGroup eng
            (compute event eng.config.fingerprint_max_frames) event).stats
            event.timestamp eng.config = true
        ∧ event.environment = "prod")
    ∧ ((process eng raw).1 = .ok (some .Spike) ↔
        event.exception_type ≠ "GitPush"
        ∧ ¬((lookupOrSeedGroup eng (compute event eng.config.fingerprint_max_frames)
              event).stats.total_count = 0 ∧ event.environment = "prod")
        ∧ ¬(regressionFlag (lookupOrSeedGroup eng
              (compute event eng.config.fingerprint_max_frames) event).stats
              event.timestamp eng.config = true ∧ event.environment = "prod")
        ∧ eng.config.spike_threshold ≤
            spikeFactor (lookupOrSeedGroup eng
              (compute event eng.config.fingerprint_max_frames) event).stats
              event.timestamp eng.config)
    ∧ ((process eng raw).1 = .ok none ↔
        event.exception_type ≠ "GitPush"
        ∧ ¬((lookupOrSeedGroup eng (compute event eng.config.fingerprint_max_frames)
              event).stats.total_count = 0 ∧ event.environment = "prod")
        ∧ ¬(regressionFlag (lookupOrSeedGroup eng
              (compute event eng.config.fingerprint_max_frames) event).stats
              event.timestamp eng.config = true ∧ event.environment = "prod")
        ∧ spikeFactor (lookupOrSeedGroup eng
              (compute event eng.config.fingerprint_max_frames) event).stats
              event.timestamp eng.config < eng.config.spike_threshold)
    ∧ (event.environment ≠ "prod" → (process eng raw).1 ≠ .ok (some .NewIssue))
    ∧ (process eng raw).2.groups
        = groupsUpsert eng.groups (compute event eng.config.fingerprint_max_frames)
            { lookupOrSeedGroup eng (compute event eng.config.fingerprint_max_frames)
                event with
              stats := (record_event (lookupOrSeedGroup eng
                  (compute event eng.config.fingerprint_max_frames) event).stats
                event.timestamp eng.config).1 } := by
  simp only [process, h]
  simp only [record_event]
  split_ifs with hGP hNew hReg hSpike
  all_goals refine ⟨?_, ?_, ?_, ?_, ?_, ?_, trivial⟩
  all_goals simp_all

theorem process_trigger_priority_witness :
    (process { config := Config.default, groups := [] } cexPlainRaw).1
      = .ok (some .NewIssue) := by
  exact ((process_trigger_priority { config := Config.default, groups := [] }
    cexPlainRaw cexPlainEvent (by decide)).2.1).mpr ⟨by decide, by decide, by decide⟩

end PushLog
